import Mathlib

/-
  Verification development for the polkadot-referenda-tester repository.

  The TypeScript sources manipulate loosely-typed JavaScript values
  (polkadot-api storage values, scheduler agenda items, dispatch results).
  We model those values with the inductive type `DVal` below and translate
  the relevant functions from the source files:

    src/utils/hex.ts                      toHexString
    src/utils/json.ts                     stringify            (as jsonStringify)
    src/utils/storage-format-converter.ts convertOriginToStorageFormat,
                                          convertProposalToStorageFormat,
                                          convertCallToStorageFormat,
                                          convertAgendaToStorageFormat
    src/utils/dispatch-result.ts          interpretDispatchResult,
                                          formatDispatchError
    src/services/referendum-simulator.ts  getSchedulingBlocks,
                                          buildPassingReferendumStorage,
                                          applyPassingState,
                                          findMatchingScheduledCall,
                                          moveScheduledCallToNextBlock,
                                          isProposalExecutionCall,
                                          isNudgeReferendumCall,
                                          matchNudgeFromProperties,
                                          classifyDispatches,
                                          checkExecutionResults
    src/services/chain-topology-builder.ts buildNetworkTopology, getRelayKey,
                                          buildConfig
    src/services/chain-registry.ts        ChainNetwork, ChainKind
-/

namespace ReferendaTester

/-- Model of an untyped JavaScript value as it flows through the converters.
`null` covers both JS `null` and `undefined` where the two behave alike;
an absent object field models `undefined` (fields holding an explicit
`undefined` value are not modelled).  `bytes` models `Uint8Array`/`Buffer`
values; `hexObj h` models a polkadot-api binary object whose `asHex()`
accessor returns the string `h`.  Numbers are modelled as integers (all
numeric values in the modelled code paths are block numbers and indices). -/
inductive DVal where
  | null
  | bool (b : Bool)
  | num (n : Int)
  | str (s : String)
  | arr (xs : List DVal)
  | obj (fs : List (String × DVal))
  | bytes (bs : List Nat)
  | hexObj (h : String)

/-- JS `String.prototype.toLowerCase` on the ASCII identifiers handled by
this code base (per-character ASCII lowercasing). -/
def jsToLowerCase (s : String) : String :=
  String.mk (s.data.map Char.toLower)

/-- JS `s.startsWith('0x')`. -/
def startsWith0x (s : String) : Bool :=
  s.data.take 2 = ['0', 'x']

/-- Whitespace trimming as performed by JS `Number(string)` (space only;
other whitespace code points do not occur in the modelled inputs). -/
def jsTrim (s : String) : String :=
  String.mk (((s.data.dropWhile (· = ' ')).reverse.dropWhile (· = ' ')).reverse)

/-- Decimal digit-run parsing for JS `Number(string)`. -/
def digitsToNat (cs : List Char) : Option Nat :=
  match cs with
  | [] => none
  | _ =>
      if cs.all Char.isDigit then
        some (cs.foldl (fun acc c => acc * 10 + (c.toNat - 48)) 0)
      else none

namespace DVal

/-- Field lookup on a JS object: first binding wins; any non-`obj` value has
no fields (property access yields `undefined`, modelled as `none`). -/
def getField : DVal → String → Option DVal
  | .obj fs, k => lookupFields fs k
  | _, _ => none
where
  lookupFields : List (String × DVal) → String → Option DVal
    | [], _ => none
    | (k', v) :: rest, k => if k' = k then some v else lookupFields rest k

/-- JS truthiness. -/
def truthy : DVal → Bool
  | .null => false
  | .bool b => b
  | .num n => n ≠ 0
  | .str s => s ≠ ""
  | .arr _ => true
  | .obj _ => true
  | .bytes _ => true
  | .hexObj _ => true

/-- Whether `typeof v === 'object'` holds in JS (true for `null`, arrays,
typed arrays and plain objects). -/
def typeofObject : DVal → Bool
  | .null => true
  | .arr _ => true
  | .obj _ => true
  | .bytes _ => true
  | .hexObj _ => true
  | _ => false

/-- JS `Number(v)` coercion, `none` standing for `NaN`.  Decimal integer
strings are converted exactly; hexadecimal/fractional strings and the
array/object coercions are modelled as `NaN` (none of the modelled code
paths feeds such values to `Number`). -/
def jsToNumber : DVal → Option Int
  | .null => some 0
  | .bool b => some (if b then 1 else 0)
  | .num n => some n
  | .str s =>
      let t := jsTrim s
      if t = "" then some 0
      else
        match t.data with
        | '-' :: rest => (digitsToNat rest).map (fun n => -(n : Int))
        | '+' :: rest => (digitsToNat rest).map (fun n => (n : Int))
        | cs => (digitsToNat cs).map (fun n => (n : Int))
  | _ => none

mutual

/-- JS `String(v)` / `.toString()` coercion.  Arrays join their elements
with commas (null elements become empty), plain objects print as
`[object Object]`. -/
def jsToString : DVal → String
  | .null => "null"
  | .bool b => cond b "true" "false"
  | .num n => toString n
  | .str s => s
  | .obj _ => "[object Object]"
  | .hexObj _ => "[object Object]"
  | .bytes bs => String.intercalate "," (bs.map toString)
  | .arr xs => String.intercalate "," (jsToStringElems xs)

/-- Element rendering inside `Array.prototype.toString`: `null`/`undefined`
elements contribute the empty string. -/
def jsToStringElems : List DVal → List String
  | [] => []
  | .null :: rest => "" :: jsToStringElems rest
  | v :: rest => jsToString v :: jsToStringElems rest

end

end DVal

/-- Escape a character for JSON string output (control-character escapes
beyond quote and backslash are not modelled). -/
def jsonEscapeChar (c : Char) : String :=
  if c = '"' then "\\\"" else if c = '\\' then "\\\\" else String.singleton c

/-- Escape a string for JSON output. -/
def jsonEscape (s : String) : String :=
  String.join (s.data.map jsonEscapeChar)

mutual

/-- Translation of `stringify` from src/utils/json.ts: `JSON.stringify` with
a replacer turning bigints into decimal strings.  Our `num` values play the
role of plain JSON numbers.  A `Uint8Array` serializes as an object with
numeric keys; a binary accessor object has only function properties and
serializes as an empty object. -/
def jsonStringify : DVal → String
  | .null => "null"
  | .bool b => cond b "true" "false"
  | .num n => toString n
  | .str s => "\"" ++ jsonEscape s ++ "\""
  | .bytes bs =>
      "\x7b" ++ String.intercalate ","
        ((List.range bs.length).zip bs |>.map
          (fun p => "\"" ++ toString p.1 ++ "\":" ++ toString p.2)) ++ "\x7d"
  | .hexObj _ => "\x7b\x7d"
  | .arr xs => "[" ++ String.intercalate "," (jsonStringifyList xs) ++ "]"
  | .obj fs => "\x7b" ++ String.intercalate "," (jsonStringifyFields fs) ++ "\x7d"

/-- JSON rendering of array elements. -/
def jsonStringifyList : List DVal → List String
  | [] => []
  | v :: rest => jsonStringify v :: jsonStringifyList rest

/-- JSON rendering of object fields. -/
def jsonStringifyFields : List (String × DVal) → List String
  | [] => []
  | (k, v) :: rest =>
      ("\"" ++ jsonEscape k ++ "\":" ++ jsonStringify v) :: jsonStringifyFields rest

end

/-! Translation of src/utils/hex.ts. -/

/-- The lowercase hex digit character for a nibble: digits map into the
ASCII `0`-`9` range, values ten and above into `a`-`f`. -/
def hexDigitChar (n : Nat) : Char :=
  let k := n % 16
  if k < 10 then Char.ofNat (48 + k) else Char.ofNat (87 + k)

/-- Two lowercase hex digits for one byte. -/
def byteToHexChars (b : Nat) : List Char :=
  [hexDigitChar ((b % 256) / 16), hexDigitChar (b % 16)]

/-- Lowercase hex rendering of a byte array (`Buffer.toString('hex')`). -/
def bytesToHex (bs : List Nat) : String :=
  String.mk (bs.flatMap byteToHexChars)

/-- Translation of `toHexString` from src/utils/hex.ts.  Strings get a `0x`
prefix when missing (their case is preserved); `Uint8Array`/`Buffer` values
render as lowercase hex; an object exposing an `asHex` accessor contributes
the accessor's string; everything else is inconvertible (`undefined`). -/
def toHexString : DVal → Option String
  | .null => none
  | .str s => some (if startsWith0x s then s else "0x" ++ s)
  | .bytes bs => some ("0x" ++ bytesToHex bs)
  | .hexObj h => some h
  | _ => none

/-! Translation of src/utils/storage-format-converter.ts. -/

open DVal (getField truthy typeofObject)

/-- Translation of `convertOriginToStorageFormat`
(src/utils/storage-format-converter.ts).  In the tagged branch the source
calls `.toLowerCase()` on the `type` field, which presupposes a string; a
non-string `type` (which would throw at runtime) is modelled as returning
the input unchanged — no theorem exercises that corner. -/
def convertOriginToStorageFormat (origin : DVal) : DVal :=
  if !origin.truthy || !origin.typeofObject then origin
  else if (getField origin "type").isSome && (getField origin "value").isSome then
    match getField origin "type" with
    | some (.str t) =>
        let innerValue := (getField origin "value").getD .null
        match (if innerValue.truthy && innerValue.typeofObject
               then getField innerValue "type" else none) with
        | some innerType => .obj [(jsToLowerCase t, innerType)]
        | none => .obj [(jsToLowerCase t, innerValue)]
    | _ => origin
  else origin

/-- `toHexString(v) ?? v`. -/
def hexOr (v : DVal) : DVal :=
  match toHexString v with
  | some s => .str s
  | none => v

/-- The `{hash, len}` object written by the Lookup branches: a field whose
source value is absent (`undefined`) is omitted from the output object. -/
def lookupHashLen (pv : DVal) : DVal :=
  .obj ((match getField pv "hash" with
         | some h => [("hash", hexOr h)]
         | none => []) ++
        (match getField pv "len" with
         | some l => [("len", l)]
         | none => []))

/-- Translation of `convertProposalToStorageFormat`
(src/utils/storage-format-converter.ts). -/
def convertProposalToStorageFormat (proposal : DVal) : DVal :=
  if !proposal.truthy || !proposal.typeofObject then proposal
  else if (getField proposal "type").isSome && (getField proposal "value").isSome then
    match getField proposal "type" with
    | some (.str t) =>
        let pv := (getField proposal "value").getD .null
        let proposalType := jsToLowerCase t
        if proposalType = "lookup" then .obj [("lookup", lookupHashLen pv)]
        else if proposalType = "inline" then .obj [("inline", hexOr pv)]
        else .obj [(proposalType, pv)]
    | _ => proposal
  else proposal

/-- Translation of `convertCallToStorageFormat`
(src/utils/storage-format-converter.ts). -/
def convertCallToStorageFormat (call : DVal) : DVal :=
  if !call.truthy || !call.typeofObject then call
  else if (getField call "type").isSome && (getField call "value").isSome then
    match getField call "type" with
    | some (.str t) =>
        let cv := (getField call "value").getD .null
        let callType := jsToLowerCase t
        if callType = "inline" then .obj [("inline", hexOr cv)]
        else if callType = "lookup" then .obj [("lookup", lookupHashLen cv)]
        else if callType = "legacy" then .obj [("legacy", cv)]
        else .obj [(callType, cv)]
    | _ => call
  else call

/-- One copied field of an agenda item (`if (item.x !== undefined) converted.x = item.x`). -/
def copiedField (item : DVal) (k : String) : List (String × DVal) :=
  match getField item k with
  | some v => [(k, v)]
  | none => []

/-- The `call` entry of a converted agenda item
(`if (item.call) converted.call = convertCallToStorageFormat(item.call)`). -/
def callEntryOf (item : DVal) : List (String × DVal) :=
  match getField item "call" with
  | some c => if c.truthy then [("call", convertCallToStorageFormat c)] else []
  | none => []

/-- The `origin` entry of a converted agenda item
(`if (item.origin !== undefined) converted.origin = convertOriginToStorageFormat(item.origin)`). -/
def originEntryOf (item : DVal) : List (String × DVal) :=
  match getField item "origin" with
  | some o => [("origin", convertOriginToStorageFormat o)]
  | none => []

/-- Per-item body of `convertAgendaToStorageFormat`
(src/utils/storage-format-converter.ts): build a fresh object holding only
the recognized fields, converting `call` (kept only when truthy) and
`origin`, and copying `maybeId`/`priority`/`maybePeriodic` when present. -/
def convertAgendaItem (item : DVal) : DVal :=
  if !item.truthy then item
  else
    .obj (callEntryOf item ++
          copiedField item "maybeId" ++
          copiedField item "priority" ++
          copiedField item "maybePeriodic" ++
          originEntryOf item)

/-- The array mapping inside `convertAgendaToStorageFormat`. -/
def convertAgendaItems (items : List DVal) : List DVal :=
  items.map convertAgendaItem

/-- Translation of `convertAgendaToStorageFormat`
(src/utils/storage-format-converter.ts): non-array inputs are returned
unchanged. -/
def convertAgendaToStorageFormat (agendaItems : DVal) : DVal :=
  match agendaItems with
  | .arr xs => .arr (convertAgendaItems xs)
  | v => v

/-! Translation of src/utils/dispatch-result.ts. -/

/-- The JS nullish-coalescing chain `v.n1 ?? v.n2 ?? ...`: first field that
is present and not nullish; `none` when every field is absent or null. -/
def coalesceNonNull (v : DVal) : List String → Option DVal
  | [] => none
  | n :: rest =>
      match getField v n with
      | some .null => coalesceNonNull v rest
      | some x => some x
      | none => coalesceNonNull v rest

/-- The JS truthiness-coalescing chain `v.n1 || v.n2 || ...`: first field
that is present and truthy. -/
def firstTruthy (v : DVal) : List String → Option DVal
  | [] => none
  | n :: rest =>
      match getField v n with
      | some x => if x.truthy then some x else firstTruthy v rest
      | none => firstTruthy v rest

/-- The payload expression `error.value ?? error.error ?? error.err ?? error.data`
of `formatDispatchError`'s typed branch, with `none` standing for
`undefined` (the branch then prints the bare `type` string). -/
def typePayload (v : DVal) : Option DVal :=
  match coalesceNonNull v ["value", "error", "err"] with
  | some x => some x
  | none => getField v "data"

mutual

/-- Translation of `formatDispatchError` from src/utils/dispatch-result.ts.
Nullish errors yield the fixed fallback message; arrays format their
entries recursively; objects are probed for `type`, `Module`, `module`,
`token` and `value` fields in source order before falling back to JSON.
A `Uint8Array` or binary accessor object has none of the probed fields and
falls through to the JSON fallback. -/
def formatDispatchError : DVal → String
  | .null => "Unknown dispatch error"
  | .str s => s
  | .bool b => cond b "true" "false"
  | .num n => toString n
  | .bytes bs => jsonStringify (.bytes bs)
  | .hexObj h => jsonStringify (.hexObj h)
  | .arr xs => String.intercalate ", " (formatDispatchErrorList xs)
  | .obj fs =>
      let v := DVal.obj fs
      match getField v "type" with
      | some (.str t) =>
          (match typePayload v with
           | some payload => t ++ ": " ++ jsonStringify payload
           | none => t)
      | _ =>
          match getField v "Module" with
          | some m => "Module error: " ++ jsonStringify m
          | none =>
            match getField v "module" with
            | some m => "Module error: " ++ jsonStringify m
            | none =>
              match getField v "token" with
              | some tk => "Token error: " ++ jsonStringify tk
              | none =>
                match getField v "value" with
                | some val => jsonStringify val
                | none => jsonStringify v

/-- Recursive formatting of array error entries. -/
def formatDispatchErrorList : List DVal → List String
  | [] => []
  | v :: rest => formatDispatchError v :: formatDispatchErrorList rest

end

/-- Outcome classification of a scheduler dispatch result. -/
inductive Outcome where
  | success
  | failure
  | unknown
deriving Repr, DecidableEq

/-- The `{outcome, message?}` record returned by `interpretDispatchResult`. -/
structure InterpretedDispatch where
  outcome : Outcome
  message : Option String
deriving Repr, DecidableEq

/-- Translation of `interpretDispatchResult` from src/utils/dispatch-result.ts.
Numbers fall through every branch to `unknown`; arrays, byte arrays and
accessor objects have `typeof === 'object'` but none of the probed fields,
so they also end at `unknown`.  A field probe such as
`'success' in result && typeof result.success === 'boolean'` only fires when
the field holds a boolean.  The `asErr` accessor is modelled as a plain
value field (the function-valued variant behaves identically after the
call). -/
def interpretDispatchResult (result : DVal) : InterpretedDispatch :=
  match result with
  | .null => ⟨.unknown, none⟩
  | .bool b => ⟨cond b .success .failure, none⟩
  | .num _ => ⟨.unknown, none⟩
  | .str s =>
      let lowered := jsToLowerCase s
      if lowered = "ok" || lowered = "success" then ⟨.success, none⟩
      else if ["err", "error", "fail", "failure"].contains lowered then
        ⟨.failure, some "Scheduler dispatch returned error"⟩
      else ⟨.unknown, none⟩
  | .arr _ => ⟨.unknown, none⟩
  | .bytes _ => ⟨.unknown, none⟩
  | .hexObj _ => ⟨.unknown, none⟩
  | .obj fs =>
      let r := DVal.obj fs
      match getField r "success" with
      | some (.bool b) =>
          if b then ⟨.success, none⟩
          else
            ⟨.failure,
             some (formatDispatchError
               ((coalesceNonNull r ["value", "error", "err"]).getD .null))⟩
      | _ =>
        match getField r "isOk" with
        | some (.bool b) =>
            if b then ⟨.success, none⟩
            else ⟨.failure, some (formatDispatchError ((getField r "asErr").getD .null))⟩
        | _ =>
          match getField r "ok" with
          | some (.bool b) =>
              if b then ⟨.success, none⟩
              else ⟨.failure, some (formatDispatchError ((getField r "err").getD .null))⟩
          | _ =>
            match getField r "Ok" with
            | some _ => ⟨.success, none⟩
            | none =>
              match getField r "Err" with
              | some errv => ⟨.failure, some (formatDispatchError errv)⟩
              | none =>
                let typeStr :=
                  match firstTruthy r ["type", "__kind", "kind"] with
                  | some tv => DVal.jsToString tv
                  | none => ""
                if typeStr ≠ "" then
                  let loweredType := jsToLowerCase typeStr
                  if loweredType = "ok" || loweredType = "success" then ⟨.success, none⟩
                  else if ["err", "error", "fail", "failure"].contains loweredType then
                    ⟨.failure,
                     some (formatDispatchError
                       ((coalesceNonNull r ["value", "error", "err"]).getD .null))⟩
                  else ⟨.unknown, none⟩
                else ⟨.unknown, none⟩

/-! Translation of src/services/referendum-simulator.ts. -/

/-- Pallet selection (`getReferendaPalletName`): fellowship referenda live in
the `FellowshipReferenda` pallet, main governance in `Referenda`. -/
def getReferendaPalletName (isFellowship : Bool) : String :=
  if isFellowship then "FellowshipReferenda" else "Referenda"

/-- The typed failure modes of the simulator (the source throws `Error`s
whose messages carry exactly these data; the spec names them
`NotFoundError`, `InvalidStateError` and `ScheduledCallNotFoundError`). -/
inductive SimError where
  | referendumNotFound (referendumId : Int) (palletName : String)
  | invalidReferendumState (referendumId : Int) (actualState : String)
  | scheduledCallNotFound (referendumId : Int) (callType : String)
deriving Repr, DecidableEq

/-- The `{currentBlock, targetBlock}` pair returned by `getSchedulingBlocks`. -/
structure SchedulingBlocks where
  currentBlock : Int
  targetBlock : Int
deriving Repr, DecidableEq

/-- Translation of `getSchedulingBlocks` (src/services/referendum-simulator.ts).
`headNumber` is the fork's own head (`System.Number`); `lastRelayBlock` is
`some r` exactly when the chain exposes a numeric
`ParachainSystem.LastRelayChainBlockNumber` indicator (absence of the
storage item, a failing read, and a null or NaN value all collapse to
`none`).  Fellowship governance never consults the indicator. -/
def getSchedulingBlocks (isFellowship : Bool) (headNumber : Int)
    (lastRelayBlock : Option Int) : SchedulingBlocks :=
  if isFellowship then ⟨headNumber, headNumber + 1⟩
  else
    match lastRelayBlock with
    | some relayBlockNumber => ⟨relayBlockNumber - 1, relayBlockNumber⟩
    | none => ⟨headNumber, headNumber + 1⟩

/-- Fellowship passing tally constant `FELLOWSHIP_PASSING_BARE_AYES`. -/
def FELLOWSHIP_PASSING_BARE_AYES : Nat := 100

/-- Fellowship passing tally constant `FELLOWSHIP_PASSING_AYES`. -/
def FELLOWSHIP_PASSING_AYES : Nat := 1000

/-- The tally object written by `buildPassingReferendumStorage`: fellowship
referenda use `{bare_ayes, ayes, nays}` counts, main governance uses
`{ayes, nays, support}` rendered as decimal strings of bigints. -/
inductive Tally where
  | fellowship (bare_ayes ayes nays : Nat)
  | governance (ayes nays support : String)
deriving Repr, DecidableEq

/-- The `{after}` enactment object (`{after: 0}` in the forced record). -/
structure Enactment where
  after : Nat
deriving Repr, DecidableEq

/-- The `{since, confirming}` deciding object of the forced record. -/
structure Deciding where
  since : Int
  confirming : Int
deriving Repr, DecidableEq

/-- The `ongoing` payload of the replacement referendum record.  Fields with
`Option DVal` type copy the corresponding (possibly absent) field of the
on-chain ongoing data; `alarm` is the nested pair
`[currentBlock+1, [currentBlock+1, 0]]`. -/
structure PassingOngoing where
  track : Option DVal
  origin : Option DVal
  proposal : Option DVal
  enactment : Enactment
  submitted : Option DVal
  submission_deposit : Option DVal
  decision_deposit : Option DVal
  deciding : Deciding
  tally : Tally
  in_queue : DVal
  alarm : Int × Int × Int

/-- The full replacement record `{ongoing: {...}}`. -/
structure ModifiedRefInfo where
  ongoing : PassingOngoing

/-- Translation of `buildPassingReferendumStorage`
(src/services/referendum-simulator.ts): the guaranteed-passing,
immediately-enactable replacement for an ongoing referendum record. -/
def buildPassingReferendumStorage (isFellowship : Bool) (ongoingData : DVal)
    (totalIssuance : Int) (currentBlock : Int) : ModifiedRefInfo :=
  let tally :=
    if isFellowship then
      Tally.fellowship FELLOWSHIP_PASSING_BARE_AYES FELLOWSHIP_PASSING_AYES 0
    else
      Tally.governance (toString (totalIssuance - 1)) "0" (toString (totalIssuance - 1))
  { ongoing :=
    { track := getField ongoingData "track"
      origin := (getField ongoingData "origin").map convertOriginToStorageFormat
      proposal := (getField ongoingData "proposal").map convertProposalToStorageFormat
      enactment := ⟨0⟩
      submitted := getField ongoingData "submitted"
      submission_deposit := getField ongoingData "submission_deposit"
      decision_deposit := getField ongoingData "decision_deposit"
      deciding := ⟨currentBlock - 1, currentBlock - 1⟩
      tally := tally
      in_queue :=
        match getField ongoingData "in_queue" with
        | some q => if q.truthy then q else .bool false
        | none => .bool false
      alarm := (currentBlock + 1, currentBlock + 1, 0) } }

/-- A fetched `ReferendumInfoFor` value: polkadot-api tagged form
`{type, value}`. -/
structure RefInfoValue where
  type : String
  value : DVal

/-- The storage update sent to the fork engine by `applyPassingState`:
`{[palletName]: {ReferendumInfoFor: [[[referendumId], value]]}}`. -/
structure ReferendumStorageUpdate where
  palletName : String
  referendumId : Int
  value : ModifiedRefInfo

/-- Translation of the storage-mutation core of `applyPassingState`
(src/services/referendum-simulator.ts).  A missing record fails with the
not-found error; a record that is neither `Ongoing` nor (case-insensitively)
`Approved` fails with the invalid-state error; otherwise the replacement
record is built from the record's payload, the total issuance and the
current scheduling block, and written to the referenda pallet. -/
def applyPassingState (isFellowship : Bool) (referendumId : Int)
    (refInfo : Option RefInfoValue) (totalIssuance : Int)
    (headNumber : Int) (lastRelayBlock : Option Int) :
    Except SimError ReferendumStorageUpdate :=
  let palletName := getReferendaPalletName isFellowship
  match refInfo with
  | none => .error (.referendumNotFound referendumId palletName)
  | some info =>
      if info.type = "Ongoing" ∨ info.type = "Approved" ∨ info.type = "approved" then
        let blocks := getSchedulingBlocks isFellowship headNumber lastRelayBlock
        .ok { palletName := palletName
              referendumId := referendumId
              value := buildPassingReferendumStorage isFellowship info.value
                         totalIssuance blocks.currentBlock }
      else .error (.invalidReferendumState referendumId info.type)

/-! Scheduler-call discovery and relocation
(src/services/referendum-simulator.ts). -/

/-- Translation of `isNudgeMethod` (src/services/referendum-simulator.ts)
applied to a possibly-absent, possibly-non-string property: the strict
string comparisons only succeed on the two spellings. -/
def isNudgeMethod : Option DVal → Bool
  | some (.str s) => s = "nudge_referendum" || s = "nudgeReferendum"
  | _ => false

/-- Translation of `matchNudgeFromProperties`
(src/services/referendum-simulator.ts): structural fallback matching of a
raw scheduler call object, recursing through `Inline` wrappers. -/
def matchNudgeFromProperties (palletName : String) (obj : DVal) : Bool :=
  if !obj.truthy then false
  else if isNudgeMethod (getField obj "method") ||
          isNudgeMethod ((getField obj "value").bind (fun v => getField v "type")) then
    true
  else if (((match getField obj "type" with
             | some (.str t) => t = palletName
             | _ => false) ||
            (match getField obj "pallet" with
             | some (.str p) => p = palletName
             | _ => false)) &&
           (match getField obj "value" with
            | some v => v.truthy
            | none => false)) &&
          (isNudgeMethod ((getField obj "value").bind (fun v => getField v "type")) ||
           isNudgeMethod ((getField obj "value").bind (fun v => getField v "method"))) then
    true
  else
    match hv : getField obj "value" with
    | some v =>
        if (match getField obj "type" with
            | some (.str t) => t = "Inline"
            | _ => false) && v.truthy then
          matchNudgeFromProperties palletName v
        else false
    | none => false
termination_by sizeOf obj
decreasing_by
  have aux : ∀ (fs : List (String × DVal)) (k : String) (w : DVal),
      DVal.getField.lookupFields fs k = some w → sizeOf w < sizeOf fs := by
    intro fs k w
    induction fs with
    | nil => intro h; simp [DVal.getField.lookupFields] at h
    | cons p rest ih =>
        intro h
        obtain ⟨k', v'⟩ := p
        rw [DVal.getField.lookupFields] at h
        by_cases hk : k' = k
        · simp [hk] at h
          subst h
          simp
          omega
        · simp [hk] at h
          have := ih h
          simp
          omega
  cases obj <;> simp [DVal.getField] at hv
  have := aux _ "value" _ hv
  simp
  omega

/-- Translation of `isNudgeReferendumCall`
(src/services/referendum-simulator.ts).  Strategy 1 decodes `Inline` bytes
through the chain client's `txFromCallData` (modelled as an oracle returning
`none` on decode failure) and requires the decoded call to target the
referenda pallet's nudge entry point with an `index` equal to the
referendum id; any miss falls through to the structural Strategy 2. -/
def isNudgeReferendumCall (txFromCallData : DVal → Option DVal)
    (isFellowship : Bool) (callData : DVal) (referendumId : Int) : Bool :=
  let palletName := getReferendaPalletName isFellowship
  let strategy1 :=
    match getField callData "type", getField callData "value" with
    | some (.str "Inline"), some v =>
        v.truthy &&
        (match txFromCallData v with
         | some decoded =>
             (match getField decoded "decodedCall" with
              | some dc =>
                  (match getField dc "type" with
                   | some (.str t) => t = palletName
                   | _ => false) &&
                  (match getField dc "value" with
                   | some callValue =>
                       isNudgeMethod (getField callValue "type") &&
                       (((getField callValue "value").bind
                           (fun vv => getField vv "index")).bind DVal.jsToNumber
                         = some referendumId)
                   | none => false)
              | none => false)
         | none => false)
    | _, _ => false
  strategy1 || matchNudgeFromProperties palletName callData

/-- Translation of `isProposalExecutionCall`
(src/services/referendum-simulator.ts).  A `Lookup` call matches when its
(hex-normalized) hash equals the proposal hash; with no (truthy) proposal
hash any `Lookup` call matches.  An `Inline` call with no proposal hash
matches unconditionally; otherwise its canonical hex (or JSON rendering of
a non-binary object) is compared to the hash, case-insensitively on the
second try. -/
def isProposalExecutionCall (call : DVal) (proposalHash : Option String) : Bool :=
  if !call.truthy then false
  else
    let isLookupType :=
      match getField call "type" with
      | some (.str t) => t = "Lookup"
      | _ => false
    let lookupTruthy :=
      match getField call "lookup" with
      | some l => l.truthy
      | none => false
    if isLookupType || lookupTruthy then
      let lookupData := if isLookupType then getField call "value" else getField call "lookup"
      match proposalHash, lookupData with
      | some ph, some ld =>
          if ph ≠ "" ∧ ld.truthy then
            let callHash :=
              match getField ld "hash" with
              | some h => (toHexString h).getD (DVal.jsToString h)
              | none => "undefined"
            callHash = ph
          else decide (ph = "")
      | some ph, none => decide (ph = "")
      | none, _ => true
    else
      let isInlineType :=
        match getField call "type" with
        | some (.str t) => t = "Inline"
        | _ => false
      let inlineTruthy :=
        match getField call "inline" with
        | some i => i.truthy
        | none => false
      if isInlineType || inlineTruthy then
        match proposalHash with
        | none => true
        | some ph =>
            if ph = "" then true
            else
              let inlineValue :=
                if isInlineType then getField call "value" else getField call "inline"
              let callDataHex :=
                match inlineValue with
                | some v =>
                    (toHexString v).getD
                      (if v.truthy && v.typeofObject then jsonStringify v else "")
                | none => ""
              callDataHex = ph || jsToLowerCase callDataHex = jsToLowerCase ph
      else false

/-- The two relocation call kinds. -/
inductive CallType where
  | nudge
  | execute
deriving Repr, DecidableEq

/-- String form of a call kind, as interpolated into the not-found error. -/
def CallType.name : CallType → String
  | .nudge => "nudge"
  | .execute => "execute"

/-- External collaborators consumed by the relocator: the chain client's
call decoder, the `Scheduler.Lookup` read (a failing or empty read is
`none`), and the scheduling-block inputs of `getSchedulingBlocks`. -/
structure SchedulerEnv where
  txFromCallData : DVal → Option DVal
  lookupGetValue : DVal → Option (Int × Int)
  isFellowship : Bool
  headNumber : Int
  lastRelayBlock : Option Int

/-- One row of `Scheduler.Agenda.getEntries()`: the slot's block number
(`keyArgs[0]`) and its ordered item list. -/
structure AgendaEntry where
  key : Int
  items : List DVal

/-- The match predicate `moveScheduledCallToNextBlock` applies per call type. -/
def schedulerMatcher (env : SchedulerEnv) (referendumId : Int)
    (callType : CallType) (proposalHash : Option String) : DVal → Bool :=
  match callType with
  | .nudge => fun c => isNudgeReferendumCall env.txFromCallData env.isFellowship c referendumId
  | .execute => fun c => isProposalExecutionCall c proposalHash

/-- The `{keyArgs, agendaItems, scheduledEntry}` triple returned by
`findMatchingScheduledCall`. -/
structure MatchResult where
  key : Int
  agendaItems : List DVal
  scheduledEntry : DVal

/-- Inner loop of `findMatchingScheduledCall`: first item of a slot whose
(truthy) `call` satisfies the predicate. -/
def findInAgendaItems (isMatch : DVal → Bool) : List DVal → Option DVal
  | [] => none
  | scheduledEntry :: rest =>
      match getField scheduledEntry "call" with
      | some c =>
          if c.truthy then
            if isMatch c then some scheduledEntry else findInAgendaItems isMatch rest
          else findInAgendaItems isMatch rest
      | none => findInAgendaItems isMatch rest

/-- Translation of `findMatchingScheduledCall`
(src/services/referendum-simulator.ts): scan every agenda slot in entry
order, skipping empty slots, and return the first slot containing a
matching item together with that item. -/
def findMatchingScheduledCall (isMatch : DVal → Bool) : List AgendaEntry → Option MatchResult
  | [] => none
  | entry :: rest =>
      if entry.items.isEmpty then findMatchingScheduledCall isMatch rest
      else
        match findInAgendaItems isMatch entry.items with
        | some scheduledEntry => some ⟨entry.key, entry.items, scheduledEntry⟩
        | none => findMatchingScheduledCall isMatch rest

/-- One write of a `setStorageBatch` call touching the scheduler pallet:
an agenda slot assignment (`none` clears the slot) or a lookup-alias
assignment. -/
inductive SchedulerWrite where
  | agendaWrite (key : Int) (value : Option (List DVal))
  | lookupWrite (id : DVal) (value : Int × Int)

/-- One `setStorageBatch` invocation. -/
structure StorageBatch where
  writes : List SchedulerWrite

/-- Storage semantics of one agenda-slot assignment: the slot keyed by
`key` is replaced (or cleared); every other slot is untouched. -/
def setAgendaSlot (agenda : List AgendaEntry) (key : Int)
    (value : Option (List DVal)) : List AgendaEntry :=
  match value with
  | none => agenda.filter (fun e => e.key ≠ key)
  | some items => agenda.filter (fun e => e.key ≠ key) ++ [⟨key, items⟩]

/-- Effect of one scheduler write on the agenda map (lookup writes do not
touch the agenda). -/
def applyAgendaWrite (agenda : List AgendaEntry) : SchedulerWrite → List AgendaEntry
  | .agendaWrite key value => setAgendaSlot agenda key value
  | .lookupWrite _ _ => agenda

/-- Effect of a whole batch on the agenda map, writes applied in order. -/
def applyBatch (agenda : List AgendaEntry) (b : StorageBatch) : List AgendaEntry :=
  b.writes.foldl applyAgendaWrite agenda

/-- Result of a successful relocation: the post-write agenda, the batches
sent to the fork engine in order, and the returned target block. -/
structure MoveOutcome where
  agenda : List AgendaEntry
  batches : List StorageBatch
  targetBlock : Int

/-- Translation of `moveScheduledCallToNextBlock`
(src/services/referendum-simulator.ts).  On a match, one batch clears the
source slot and writes the whole converted agenda array under the target
block; when the matched item carries a truthy `maybeId` whose lookup entry
exists, a second batch rewrites that alias to `[targetBlock, 0]`.  Without
a match the call fails with the scheduled-call-not-found error and issues
no write. -/
def moveScheduledCallToNextBlock (env : SchedulerEnv) (agenda : List AgendaEntry)
    (referendumId : Int) (callType : CallType) (proposalHash : Option String) :
    Except SimError MoveOutcome :=
  let targetBlock :=
    (getSchedulingBlocks env.isFellowship env.headNumber env.lastRelayBlock).targetBlock
  match findMatchingScheduledCall
          (schedulerMatcher env referendumId callType proposalHash) agenda with
  | none => .error (.scheduledCallNotFound referendumId callType.name)
  | some m =>
      let convertedAgenda := convertAgendaItems m.agendaItems
      let agendaBatch : StorageBatch :=
        ⟨[.agendaWrite m.key none, .agendaWrite targetBlock (some convertedAgenda)]⟩
      let agenda1 := applyBatch agenda agendaBatch
      match getField m.scheduledEntry "maybeId" with
      | some mid =>
          if mid.truthy then
            match env.lookupGetValue mid with
            | some _ =>
                let lookupBatch : StorageBatch := ⟨[.lookupWrite mid (targetBlock, 0)]⟩
                .ok ⟨applyBatch agenda1 lookupBatch, [agendaBatch, lookupBatch], targetBlock⟩
            | none => .ok ⟨agenda1, [agendaBatch], targetBlock⟩
          else .ok ⟨agenda1, [agendaBatch], targetBlock⟩
      | none => .ok ⟨agenda1, [agendaBatch], targetBlock⟩

/-! Execution-result verification (src/services/referendum-simulator.ts). -/

/-- One parsed block event (`ParsedEvent` of src/utils/event-serializer.ts):
pallet section, event method and the event payload.  `section` is a Lean
keyword, hence the field name `sectionName`. -/
structure ParsedEvent where
  sectionName : String
  method : String
  data : DVal

/-- The `e.data?.value || e.data` unwrapping used on dispatched events. -/
def eventValueOf (data : DVal) : DVal :=
  match getField data "value" with
  | some v => if v.truthy then v else data
  | none => data

/-- The `result` component fed to `interpretDispatchResult` (absent models
`undefined`, which the interpreter maps to `unknown` just like `null`). -/
def dispatchResultOf (e : ParsedEvent) : DVal :=
  (getField (eventValueOf e.data) "result").getD .null

/-- Whether `classifyDispatches` skips a dispatched event: only events whose
`task` is an array are checked, and they are skipped when `expectedBlock` is
given and `Number(task[0])` differs from it (an empty task array gives
`NaN`, which never matches). -/
def dispatchSkipped (expectedBlock : Option Int) (e : ParsedEvent) : Bool :=
  match getField (eventValueOf e.data) "task", expectedBlock with
  | some (.arr xs), some eb =>
      match xs.head? with
      | some x => !(DVal.jsToNumber x == some eb)
      | none => true
  | _, _ => false

/-- Translation of `classifyDispatches`
(src/services/referendum-simulator.ts): partition the dispatched events
into successes and failures (with their interpreted messages), dropping
skipped events and events with an `unknown` result. -/
def classifyDispatches (expectedBlock : Option Int) :
    List ParsedEvent → List ParsedEvent × List (ParsedEvent × Option String)
  | [] => ([], [])
  | e :: rest =>
      let acc := classifyDispatches expectedBlock rest
      if dispatchSkipped expectedBlock e then acc
      else
        let parsedResult := interpretDispatchResult (dispatchResultOf e)
        match parsedResult.outcome with
        | .success => (e :: acc.1, acc.2)
        | .failure => (acc.1, (e, parsedResult.message) :: acc.2)
        | .unknown => acc

/-- The `{executionSucceeded, errors?}` result of `checkExecutionResults`. -/
structure ExecutionCheck where
  executionSucceeded : Bool
  errors : Option (List String)

/-- The failure message taken from a failed dispatch:
`dispatch.message || 'Scheduler dispatch failed'` (a missing or empty
message falls back). -/
def failedDispatchMessage (m : Option String) : String :=
  match m with
  | some s => if s = "" then "Scheduler dispatch failed" else s
  | none => "Scheduler dispatch failed"

/-- The `System.ExtrinsicFailed` filter of `checkExecutionResults`. -/
def isExtrinsicFailedEvent (e : ParsedEvent) : Bool :=
  e.sectionName = "System" ∧ e.method = "ExtrinsicFailed"

/-- The `Scheduler.Dispatched` filter of `checkExecutionResults`. -/
def isDispatchedEvent (e : ParsedEvent) : Bool :=
  e.sectionName = "Scheduler" ∧ e.method = "Dispatched"

/-- Translation of `checkExecutionResults`
(src/services/referendum-simulator.ts).  `referendumId` is accepted but,
as in the source, does not influence the verdict. -/
def checkExecutionResults (events : List ParsedEvent) (referendumId : Int)
    (expectedBlock : Option Int) : ExecutionCheck :=
  let extrinsicFailures := events.filter isExtrinsicFailedEvent
  let extrinsicFailureMessages :=
    extrinsicFailures.map (fun e => "ExtrinsicFailed: " ++ formatDispatchError e.data)
  let dispatchedEvents := events.filter isDispatchedEvent
  if dispatchedEvents.length > 0 then
    let classified := classifyDispatches expectedBlock dispatchedEvents
    if classified.1.length > 0 ∧ classified.2.length = 0 ∧ extrinsicFailures.length = 0 then
      ⟨true, none⟩
    else if classified.2.length > 0 ∨ extrinsicFailures.length > 0 then
      ⟨false,
       some (classified.2.map (fun d => failedDispatchMessage d.2) ++ extrinsicFailureMessages)⟩
    else if extrinsicFailures.length > 0 then
      ⟨false, some extrinsicFailureMessages⟩
    else noDispatchResult expectedBlock
  else if extrinsicFailures.length > 0 then
    ⟨false, some extrinsicFailureMessages⟩
  else noDispatchResult expectedBlock
where
  /-- The no-dispatch diagnostic, block-qualified when `expectedBlock` is given. -/
  noDispatchResult (expectedBlock : Option Int) : ExecutionCheck :=
    let errorMsg :=
      match expectedBlock with
      | some eb =>
          s!"No Scheduler.Dispatched event found for block {eb} - proposal execution did not happen"
      | none => "No Scheduler.Dispatched event found - referendum was not executed"
    ⟨false, some [errorMsg]⟩

/-! Translation of src/services/chain-topology-builder.ts and the chain
classification types of src/services/chain-registry.ts. -/

/-- The chain network identities of `ChainNetwork` (chain-registry.ts). -/
inductive ChainNetwork where
  | polkadot
  | kusama
  | paseo
  | westend
  | rococo
  | unknown
deriving Repr, DecidableEq

/-- The string value each `ChainNetwork` constructor stands for. -/
def ChainNetwork.name : ChainNetwork → String
  | .polkadot => "polkadot"
  | .kusama => "kusama"
  | .paseo => "paseo"
  | .westend => "westend"
  | .rococo => "rococo"
  | .unknown => "unknown"

/-- The chain kinds of `ChainKind` (chain-registry.ts). -/
inductive ChainKind where
  | relay
  | parachain
deriving Repr, DecidableEq

/-- The slice of `ChainInfo` (chain-registry.ts) the topology builder reads. -/
structure ChainInfo where
  kind : ChainKind
  network : ChainNetwork
  endpoint : String
deriving Repr, DecidableEq

/-- Translation of `getRelayKey` (src/services/chain-topology-builder.ts). -/
def getRelayKey : ChainNetwork → String
  | .polkadot => "polkadot"
  | .kusama => "kusama"
  | _ => "relay"

/-- Per-role storage injections selectable in `buildConfig`. -/
inductive StorageInjection where
  | fellowship
  | aliceAccount
deriving Repr, DecidableEq

/-- The fork configuration assembled by `buildConfig`
(src/services/chain-topology-builder.ts), restricted to the inputs that
vary per chain (the fixed fork-engine options — database path, manual
build-block mode, mock signatures, unresolved-import tolerance, runtime
log level — are constants in the source and are not modelled). -/
structure ForkConfig where
  endpoint : String
  block : Option Int
  storageInjection : Option StorageInjection
deriving Repr, DecidableEq

/-- Translation of the varying part of `buildConfig`. -/
def buildConfig (endpoint : String) (block : Option Int)
    (storageInjection : Option StorageInjection) : ForkConfig :=
  ⟨endpoint, block, storageInjection⟩

/-- The `{networkConfig, governanceKey, fellowshipKey}` triple returned by
`buildNetworkTopology`. -/
structure TopologyResult where
  networkConfig : List (String × ForkConfig)
  governanceKey : String
  fellowshipKey : String
deriving Repr, DecidableEq

/-- Translation of `buildNetworkTopology`
(src/services/chain-topology-builder.ts) for detected governance and
fellowship chains.  The boolean flags model the presence of
`callToCreateFellowshipReferendum` / `callToCreateGovernanceReferendum` in
the options. -/
def buildNetworkTopology (governanceChain fellowshipChain : ChainInfo)
    (governanceBlock fellowshipBlock : Option Int)
    (createFellowshipReferendum createGovernanceReferendum : Bool) : TopologyResult :=
  let governanceIsRelay := governanceChain.kind = ChainKind.relay
  let fellowshipIsRelay := fellowshipChain.kind = ChainKind.relay
  let fellowshipInjection :=
    if createFellowshipReferendum then some StorageInjection.fellowship else none
  let governanceInjection :=
    if createGovernanceReferendum then some StorageInjection.aliceAccount else none
  if ¬governanceIsRelay ∧ ¬fellowshipIsRelay then
    { networkConfig :=
        [("governance", buildConfig governanceChain.endpoint governanceBlock governanceInjection),
         ("fellowship", buildConfig fellowshipChain.endpoint fellowshipBlock fellowshipInjection)]
      governanceKey := "governance"
      fellowshipKey := "fellowship" }
  else
    let relayChain := if governanceIsRelay then governanceChain else fellowshipChain
    let parachain := if governanceIsRelay then fellowshipChain else governanceChain
    let relayBlock := if governanceIsRelay then governanceBlock else fellowshipBlock
    let parachainBlock := if governanceIsRelay then fellowshipBlock else governanceBlock
    let relayKey := getRelayKey relayChain.network
    let parachainKey := if governanceIsRelay then "fellowship" else "governance"
    let governanceKey := if governanceIsRelay then relayKey else parachainKey
    let fellowshipKey := if fellowshipIsRelay then relayKey else parachainKey
    let relayInjection := if governanceIsRelay then governanceInjection else fellowshipInjection
    let parachainInjection :=
      if governanceIsRelay then fellowshipInjection else governanceInjection
    { networkConfig :=
        [(relayKey, buildConfig relayChain.endpoint relayBlock relayInjection),
         (parachainKey, buildConfig parachain.endpoint parachainBlock parachainInjection)]
      governanceKey := governanceKey
      fellowshipKey := fellowshipKey }

/-! Vocabulary used to state the specification claims. -/

/-- A string is canonical hex when it starts with `0x` and continues with
lowercase hex digits only. -/
def isLowerHexChar (c : Char) : Bool :=
  c.isDigit || ('a' ≤ c && c ≤ 'f')

/-- Canonical `0x`-prefixed lowercase hex strings. -/
def isCanonicalHex (s : String) : Bool :=
  match s.data with
  | c0 :: c1 :: rest => c0 = '0' && c1 = 'x' && rest.all isLowerHexChar
  | _ => false

/-- Adding a `0x` prefix to a string when it is missing (what `toHexString`
does to string payloads). -/
def ensure0x (s : String) : String :=
  if startsWith0x s then s else "0x" ++ s

/-- The claim's notion of an authoritative dispatch: a `Scheduler.Dispatched`
event whose task's block component equals the expected block. -/
def authoritativeDispatch (expectedBlock : Int) (e : ParsedEvent) : Bool :=
  isDispatchedEvent e &&
  (match getField (eventValueOf e.data) "task" with
   | some (.arr xs) =>
       match xs.head? with
       | some x => DVal.jsToNumber x == some expectedBlock
       | none => false
   | _ => false)

/-- The outcome of a dispatched event's embedded result. -/
def dispatchOutcomeOf (e : ParsedEvent) : Outcome :=
  (interpretDispatchResult (dispatchResultOf e)).outcome

/-- A dispatched event that `classifyDispatches` does not skip — it counts
toward the verdict. -/
def countedDispatch (expectedBlock : Option Int) (e : ParsedEvent) : Bool :=
  !dispatchSkipped expectedBlock e

/-- A counted dispatch with a `success` result. -/
def dispatchSuccessCounted (expectedBlock : Option Int) (e : ParsedEvent) : Bool :=
  countedDispatch expectedBlock e && decide (dispatchOutcomeOf e = Outcome.success)

/-- A counted dispatch with a `failure` result. -/
def dispatchFailureCounted (expectedBlock : Option Int) (e : ParsedEvent) : Bool :=
  countedDispatch expectedBlock e && decide (dispatchOutcomeOf e = Outcome.failure)

/-- The interpreted message of a dispatched event. -/
def dispatchMessageOf (e : ParsedEvent) : Option String :=
  (interpretDispatchResult (dispatchResultOf e)).message

/-! Theorems settling the specification claims. -/

/-- C5: for every fellowship request `getSchedulingBlocks` returns
`current = headNumber` and `target = current + 1` and is insensitive to the
last-relay-chain-block indicator, while a main-governance request on a
chain exposing the indicator returns `current = lastRelayBlock - 1`,
`target = lastRelayBlock`. -/
theorem getSchedulingBlocks_fellowship_ignores_relay
    (headNumber : Int) (lastRelayBlock : Option Int) (relayBlock : Int) :
    getSchedulingBlocks true headNumber lastRelayBlock = ⟨headNumber, headNumber + 1⟩ ∧
    getSchedulingBlocks true headNumber lastRelayBlock
      = getSchedulingBlocks true headNumber none ∧
    getSchedulingBlocks false headNumber (some relayBlock)
      = ⟨relayBlock - 1, relayBlock⟩ :=
  ⟨rfl, rfl, rfl⟩

/-- C1: for a main-governance referendum whose forked record is `Ongoing`,
`applyPassingState` writes to the `Referenda` pallet a replacement record
with tally `ayes = support = totalIssuance - 1` and `nays = 0` (rendered as
decimal strings, as in the storage write), enactment `{after: 0}`, deciding
`{since: currentBlock-1, confirming: currentBlock-1}` with `currentBlock`
from `getSchedulingBlocks`, and alarm scheduled at `currentBlock + 1`. -/
theorem applyPassingState_governance_ongoing
    (data : DVal) (totalIssuance : Int) (headNumber : Int)
    (lastRelayBlock : Option Int) (referendumId : Int) :
    ∃ u : ReferendumStorageUpdate,
      applyPassingState false referendumId (some ⟨"Ongoing", data⟩)
          totalIssuance headNumber lastRelayBlock = .ok u ∧
      u.palletName = "Referenda" ∧
      u.referendumId = referendumId ∧
      u.value.ongoing.tally
        = Tally.governance (toString (totalIssuance - 1)) "0" (toString (totalIssuance - 1)) ∧
      u.value.ongoing.enactment = ⟨0⟩ ∧
      u.value.ongoing.deciding
        = ⟨(getSchedulingBlocks false headNumber lastRelayBlock).currentBlock - 1,
           (getSchedulingBlocks false headNumber lastRelayBlock).currentBlock - 1⟩ ∧
      u.value.ongoing.alarm
        = ((getSchedulingBlocks false headNumber lastRelayBlock).currentBlock + 1,
           (getSchedulingBlocks false headNumber lastRelayBlock).currentBlock + 1, 0) :=
  ⟨_, rfl, rfl, rfl, rfl, rfl, rfl, rfl⟩

/-- C7: `convertOriginToStorageFormat`, `convertProposalToStorageFormat` and
`convertCallToStorageFormat` return every non-object or null input and
every object lacking the `type`/`value` discriminant pair (in particular
every already-converted single-key map) unchanged, so applying any of them
twice equals applying it once on such inputs. -/
theorem converters_passthrough_idempotent (v : DVal)
    (h : v.typeofObject = false ∨ v = DVal.null ∨
         ((getField v "type").isSome && (getField v "value").isSome) = false) :
    convertOriginToStorageFormat v = v ∧
    convertProposalToStorageFormat v = v ∧
    convertCallToStorageFormat v = v ∧
    convertOriginToStorageFormat (convertOriginToStorageFormat v)
      = convertOriginToStorageFormat v ∧
    convertProposalToStorageFormat (convertProposalToStorageFormat v)
      = convertProposalToStorageFormat v ∧
    convertCallToStorageFormat (convertCallToStorageFormat v)
      = convertCallToStorageFormat v := by
  have ho : convertOriginToStorageFormat v = v := by
    rcases h with h | h | h
    · simp [convertOriginToStorageFormat, h]
    · subst h; rfl
    · simp [convertOriginToStorageFormat, h]
  have hp : convertProposalToStorageFormat v = v := by
    rcases h with h | h | h
    · simp [convertProposalToStorageFormat, h]
    · subst h; rfl
    · simp [convertProposalToStorageFormat, h]
  have hc : convertCallToStorageFormat v = v := by
    rcases h with h | h | h
    · simp [convertCallToStorageFormat, h]
    · subst h; rfl
    · simp [convertCallToStorageFormat, h]
  exact ⟨ho, hp, hc, by rw [ho, ho], by rw [hp, hp], by rw [hc, hc]⟩

/-- Witness for C7 at the already-converted origin `{origins: "Treasurer"}`. -/
theorem converters_passthrough_idempotent_witness :
    convertOriginToStorageFormat (.obj [("origins", .str "Treasurer")])
      = .obj [("origins", .str "Treasurer")] ∧
    convertCallToStorageFormat (.obj [("origins", .str "Treasurer")])
      = .obj [("origins", .str "Treasurer")] :=
  ⟨(converters_passthrough_idempotent _ (Or.inr (Or.inr (by decide)))).1,
   (converters_passthrough_idempotent _ (Or.inr (Or.inr (by decide)))).2.2.1⟩

/-- Every hex digit emitted by `hexDigitChar` is a lowercase hex character. -/
theorem isLowerHexChar_hexDigitChar (n : Nat) :
    isLowerHexChar (hexDigitChar n) = true := by
  unfold hexDigitChar
  have h : n % 16 < 16 := Nat.mod_lt _ (by norm_num)
  set k := n % 16 with hk
  interval_cases k <;> simp <;> decide

/-- The hex rendering of a byte array is canonical lowercase hex. -/
theorem isCanonicalHex_bytesToHex (bs : List Nat) :
    isCanonicalHex ("0x" ++ bytesToHex bs) = true := by
  have hall : ∀ c ∈ bs.flatMap byteToHexChars, isLowerHexChar c = true := by
    intro c hc
    rw [List.mem_flatMap] at hc
    obtain ⟨b, _, hcb⟩ := hc
    simp only [byteToHexChars, List.mem_cons, List.mem_singleton,
      List.not_mem_nil, or_false] at hcb
    rcases hcb with rfl | rfl <;> exact isLowerHexChar_hexDigitChar _
  show (bs.flatMap byteToHexChars).all isLowerHexChar = true
  exact List.all_eq_true.mpr hall

/-- C9 counterexample: a string `Inline` payload keeps its original case, so
the converted output is not canonical lowercase hex. -/
theorem convertCall_uppercase_inline_counterexample :
    convertCallToStorageFormat (.obj [("type", .str "Inline"), ("value", .str "0xAB")])
      = .obj [("inline", .str "0xAB")] ∧
    isCanonicalHex "0xAB" = false := by
  exact ⟨rfl, by decide⟩

/-- C9 (amended): byte-array payloads (`Uint8Array`/`Buffer`) inside an
`Inline` payload or `Lookup` hash convert to canonical `0x`-prefixed
lowercase hex; string payloads only gain a `0x` prefix when missing, keeping
their case; accessor-object payloads contribute the accessor's string
verbatim. -/
theorem converted_binary_payload_hex (bs : List Nat) (s hx : String) (len : DVal) :
    convertCallToStorageFormat (.obj [("type", .str "Inline"), ("value", .bytes bs)])
      = .obj [("inline", .str ("0x" ++ bytesToHex bs))] ∧
    isCanonicalHex ("0x" ++ bytesToHex bs) = true ∧
    convertProposalToStorageFormat
        (.obj [("type", .str "Lookup"),
               ("value", .obj [("hash", .bytes bs), ("len", len)])])
      = .obj [("lookup", .obj [("hash", .str ("0x" ++ bytesToHex bs)), ("len", len)])] ∧
    convertCallToStorageFormat (.obj [("type", .str "Inline"), ("value", .str s)])
      = .obj [("inline", .str (ensure0x s))] ∧
    convertCallToStorageFormat (.obj [("type", .str "Inline"), ("value", .hexObj hx)])
      = .obj [("inline", .str hx)] :=
  ⟨rfl, isCanonicalHex_bytesToHex bs, rfl, rfl, rfl⟩

/-- C8 counterexample: with two relay-chain roles (governance on Polkadot,
fellowship on Kusama) the fellowship role receives the governance relay's
key, which is neither the fellowship chain's network identity nor the
generic fallback. -/
theorem buildNetworkTopology_bothRelay_counterexample :
    (buildNetworkTopology ⟨.relay, .polkadot, "wss://gov"⟩ ⟨.relay, .kusama, "wss://fell"⟩
        none none false false).fellowshipKey = "polkadot" ∧
    ("polkadot" : String) ≠ getRelayKey ChainNetwork.kusama ∧
    ("polkadot" : String) ≠ ChainNetwork.name ChainNetwork.kusama ∧
    ("polkadot" : String) ≠ "relay" :=
  ⟨rfl, by decide, by decide, by decide⟩

/-- C8 (amended): in the governance=relay("polkadot")/fellowship=parachain
scenario the governance role gets the key `"polkadot"` and the fellowship
role the key `"fellowship"`; in general, whenever at most one of the two
roles is a relay chain, a relay role's key is `getRelayKey` of its own
network (its network identity for polkadot/kusama, else the generic
`"relay"`) and a parachain role gets its logical key; when both roles are
relay chains, both keys collapse to the governance relay's key. -/
theorem buildNetworkTopology_keys
    (governanceChain fellowshipChain : ChainInfo)
    (governanceBlock fellowshipBlock : Option Int)
    (createFellowshipReferendum createGovernanceReferendum : Bool) :
    (governanceChain.kind = .relay → fellowshipChain.kind = .parachain →
      (buildNetworkTopology governanceChain fellowshipChain governanceBlock fellowshipBlock
          createFellowshipReferendum createGovernanceReferendum).governanceKey
        = getRelayKey governanceChain.network ∧
      (buildNetworkTopology governanceChain fellowshipChain governanceBlock fellowshipBlock
          createFellowshipReferendum createGovernanceReferendum).fellowshipKey
        = "fellowship") ∧
    (governanceChain.kind = .parachain → fellowshipChain.kind = .relay →
      (buildNetworkTopology governanceChain fellowshipChain governanceBlock fellowshipBlock
          createFellowshipReferendum createGovernanceReferendum).governanceKey
        = "governance" ∧
      (buildNetworkTopology governanceChain fellowshipChain governanceBlock fellowshipBlock
          createFellowshipReferendum createGovernanceReferendum).fellowshipKey
        = getRelayKey fellowshipChain.network) ∧
    (governanceChain.kind = .parachain → fellowshipChain.kind = .parachain →
      (buildNetworkTopology governanceChain fellowshipChain governanceBlock fellowshipBlock
          createFellowshipReferendum createGovernanceReferendum).governanceKey
        = "governance" ∧
      (buildNetworkTopology governanceChain fellowshipChain governanceBlock fellowshipBlock
          createFellowshipReferendum createGovernanceReferendum).fellowshipKey
        = "fellowship") ∧
    (governanceChain.kind = .relay → fellowshipChain.kind = .relay →
      (buildNetworkTopology governanceChain fellowshipChain governanceBlock fellowshipBlock
          createFellowshipReferendum createGovernanceReferendum).governanceKey
        = getRelayKey governanceChain.network ∧
      (buildNetworkTopology governanceChain fellowshipChain governanceBlock fellowshipBlock
          createFellowshipReferendum createGovernanceReferendum).fellowshipKey
        = getRelayKey governanceChain.network) ∧
    (∀ n, getRelayKey n = ChainNetwork.name n ∨ getRelayKey n = "relay") := by
  refine ⟨?_, ?_, ?_, ?_, ?_⟩
  · intro h1 h2
    constructor <;> simp [buildNetworkTopology, h1, h2]
  · intro h1 h2
    constructor <;> simp [buildNetworkTopology, h1, h2]
  · intro h1 h2
    constructor <;> simp [buildNetworkTopology, h1, h2]
  · intro h1 h2
    constructor <;> simp [buildNetworkTopology, h1, h2]
  · intro n
    cases n <;> simp [getRelayKey, ChainNetwork.name]

/-- Witness for C8 at the spec scenario: governance is the Polkadot relay,
fellowship a Polkadot-network parachain (the collectives chain). -/
theorem buildNetworkTopology_keys_witness :
    (buildNetworkTopology ⟨.relay, .polkadot, "wss://polkadot"⟩
        ⟨.parachain, .polkadot, "wss://collectives"⟩ none none false false).governanceKey
      = "polkadot" ∧
    (buildNetworkTopology ⟨.relay, .polkadot, "wss://polkadot"⟩
        ⟨.parachain, .polkadot, "wss://collectives"⟩ none none false false).fellowshipKey
      = "fellowship" := by
  have h := (buildNetworkTopology_keys ⟨.relay, .polkadot, "wss://polkadot"⟩
    ⟨.parachain, .polkadot, "wss://collectives"⟩ none none false false).1 rfl rfl
  exact ⟨h.1, h.2⟩

/-- C6 counterexample: the boolean dispatch result `false` is a documented
shape mapped to `failure`, but the interpreter attaches no message to it,
contradicting the claim that every failure carries a non-empty message. -/
theorem interpretDispatchResult_false_no_message :
    interpretDispatchResult (.bool false) = ⟨.failure, none⟩ := rfl

/-- C6 (amended): every documented dispatch-result shape maps to exactly
the documented outcome; failures from `Err`-like object shapes carry the
formatted error payload as message (non-empty for null payloads via the
fixed fallback), the `Err`-like strings carry the fixed non-empty message,
and the boolean `false` maps to failure with no message. -/
theorem interpretDispatchResult_documented_shapes (x : DVal) :
    interpretDispatchResult (.obj [("Ok", .null)]) = ⟨.success, none⟩ ∧
    interpretDispatchResult (.obj [("Err", x)])
      = ⟨.failure, some (formatDispatchError x)⟩ ∧
    interpretDispatchResult (.obj [("isOk", .bool true)]) = ⟨.success, none⟩ ∧
    interpretDispatchResult (.obj [("isOk", .bool false), ("asErr", x)])
      = ⟨.failure, some (formatDispatchError x)⟩ ∧
    interpretDispatchResult (.obj [("success", .bool true)]) = ⟨.success, none⟩ ∧
    interpretDispatchResult (.obj [("success", .bool false), ("value", x)])
      = ⟨.failure, some (formatDispatchError x)⟩ ∧
    interpretDispatchResult (.bool true) = ⟨.success, none⟩ ∧
    interpretDispatchResult (.bool false) = ⟨.failure, none⟩ ∧
    interpretDispatchResult (.str "Ok") = ⟨.success, none⟩ ∧
    interpretDispatchResult (.str "Err")
      = ⟨.failure, some "Scheduler dispatch returned error"⟩ ∧
    formatDispatchError .null = "Unknown dispatch error" ∧
    ("Scheduler dispatch returned error" : String) ≠ "" := by
  refine ⟨rfl, rfl, rfl, rfl, rfl, ?_, rfl, rfl, by decide, by decide, rfl, by decide⟩
  cases x <;> rfl

/-- Every element of a copied-field block carries that field's key. -/
theorem key_of_mem_copiedField {item : DVal} {k : String} {p : String × DVal}
    (h : p ∈ copiedField item k) : p.1 = k := by
  rcases hg : getField item k with _ | v
  · simp [copiedField, hg] at h
  · simp [copiedField, hg] at h
    subst h
    rfl

/-- A copied-field block contributes its key exactly when the source field
is present. -/
theorem exists_mem_copiedField {item : DVal} {k : String} :
    (∃ w, (k, w) ∈ copiedField item k) ↔ (getField item k).isSome = true := by
  rcases hg : getField item k with _ | v <;> simp [copiedField, hg]

/-- Every element of the call entry carries the key `"call"`. -/
theorem key_of_mem_callEntryOf {item : DVal} {p : String × DVal}
    (h : p ∈ callEntryOf item) : p.1 = "call" := by
  rcases hg : getField item "call" with _ | c
  · simp [callEntryOf, hg] at h
  · by_cases ht : c.truthy = true
    · simp [callEntryOf, hg, ht] at h
      subst h
      rfl
    · simp [callEntryOf, hg, ht] at h

/-- The call entry is present exactly when the item's `call` is truthy. -/
theorem exists_mem_callEntryOf {item : DVal} :
    (∃ w, ("call", w) ∈ callEntryOf item)
      ↔ ∃ c, getField item "call" = some c ∧ c.truthy = true := by
  rcases hg : getField item "call" with _ | c
  · simp [callEntryOf, hg]
  · by_cases ht : c.truthy = true <;> simp [callEntryOf, hg, ht]

/-- Every element of the origin entry carries the key `"origin"`. -/
theorem key_of_mem_originEntryOf {item : DVal} {p : String × DVal}
    (h : p ∈ originEntryOf item) : p.1 = "origin" := by
  rcases hg : getField item "origin" with _ | o
  · simp [originEntryOf, hg] at h
  · simp [originEntryOf, hg] at h
    subst h
    rfl

/-- The origin entry is present exactly when the source field is present. -/
theorem exists_mem_originEntryOf {item : DVal} :
    (∃ w, ("origin", w) ∈ originEntryOf item)
      ↔ (getField item "origin").isSome = true := by
  rcases hg : getField item "origin" with _ | o <;> simp [originEntryOf, hg]

/-- C10: the converted agenda item of every (object) agenda item holds at
most the fields `call`, `maybeId`, `priority`, `maybePeriodic` and `origin`;
`call` appears exactly when the input's `call` is truthy, and each of the
other four exactly when the corresponding input field is present — every
unrecognized input field is dropped.  The last conjunct ties the per-item
conversion to `convertAgendaToStorageFormat`. -/
theorem convertAgendaItem_drops_unrecognized_fields
    (fs : List (String × DVal)) (items : List DVal) :
    (∃ gs, convertAgendaItem (.obj fs) = .obj gs ∧
      (∀ p ∈ gs, p.1 = "call" ∨ p.1 = "maybeId" ∨ p.1 = "priority" ∨
                 p.1 = "maybePeriodic" ∨ p.1 = "origin") ∧
      ((∃ w, ("call", w) ∈ gs)
        ↔ ∃ c, getField (.obj fs) "call" = some c ∧ c.truthy = true) ∧
      ((∃ w, ("maybeId", w) ∈ gs) ↔ (getField (.obj fs) "maybeId").isSome = true) ∧
      ((∃ w, ("priority", w) ∈ gs) ↔ (getField (.obj fs) "priority").isSome = true) ∧
      ((∃ w, ("maybePeriodic", w) ∈ gs)
        ↔ (getField (.obj fs) "maybePeriodic").isSome = true) ∧
      ((∃ w, ("origin", w) ∈ gs) ↔ (getField (.obj fs) "origin").isSome = true)) ∧
    convertAgendaToStorageFormat (.arr items) = .arr (items.map convertAgendaItem) := by
  refine ⟨⟨_, rfl, ?_, ?_, ?_, ?_, ?_, ?_⟩, rfl⟩
  · intro p hp
    simp only [List.mem_append] at hp
    rcases hp with ((((h | h) | h) | h) | h)
    · exact Or.inl (key_of_mem_callEntryOf h)
    · exact Or.inr (Or.inl (key_of_mem_copiedField h))
    · exact Or.inr (Or.inr (Or.inl (key_of_mem_copiedField h)))
    · exact Or.inr (Or.inr (Or.inr (Or.inl (key_of_mem_copiedField h))))
    · exact Or.inr (Or.inr (Or.inr (Or.inr (key_of_mem_originEntryOf h))))
  · constructor
    · rintro ⟨w, hw⟩
      simp only [List.mem_append] at hw
      rcases hw with ((((h | h) | h) | h) | h)
      · exact exists_mem_callEntryOf.1 ⟨w, h⟩
      · have hk := key_of_mem_copiedField h
        simp at hk
      · have hk := key_of_mem_copiedField h
        simp at hk
      · have hk := key_of_mem_copiedField h
        simp at hk
      · have hk := key_of_mem_originEntryOf h
        simp at hk
    · intro hex
      obtain ⟨w, hw⟩ := exists_mem_callEntryOf.2 hex
      refine ⟨w, ?_⟩
      simp only [List.mem_append]
      exact Or.inl (Or.inl (Or.inl (Or.inl hw)))
  · constructor
    · rintro ⟨w, hw⟩
      simp only [List.mem_append] at hw
      rcases hw with ((((h | h) | h) | h) | h)
      · have hk := key_of_mem_callEntryOf h
        simp at hk
      · exact exists_mem_copiedField.1 ⟨w, h⟩
      · have hk := key_of_mem_copiedField h
        simp at hk
      · have hk := key_of_mem_copiedField h
        simp at hk
      · have hk := key_of_mem_originEntryOf h
        simp at hk
    · intro hex
      obtain ⟨w, hw⟩ := exists_mem_copiedField.2 hex
      refine ⟨w, ?_⟩
      simp only [List.mem_append]
      exact Or.inl (Or.inl (Or.inl (Or.inr hw)))
  · constructor
    · rintro ⟨w, hw⟩
      simp only [List.mem_append] at hw
      rcases hw with ((((h | h) | h) | h) | h)
      · have hk := key_of_mem_callEntryOf h
        simp at hk
      · have hk := key_of_mem_copiedField h
        simp at hk
      · exact exists_mem_copiedField.1 ⟨w, h⟩
      · have hk := key_of_mem_copiedField h
        simp at hk
      · have hk := key_of_mem_originEntryOf h
        simp at hk
    · intro hex
      obtain ⟨w, hw⟩ := exists_mem_copiedField.2 hex
      refine ⟨w, ?_⟩
      simp only [List.mem_append]
      exact Or.inl (Or.inl (Or.inr hw))
  · constructor
    · rintro ⟨w, hw⟩
      simp only [List.mem_append] at hw
      rcases hw with ((((h | h) | h) | h) | h)
      · have hk := key_of_mem_callEntryOf h
        simp at hk
      · have hk := key_of_mem_copiedField h
        simp at hk
      · have hk := key_of_mem_copiedField h
        simp at hk
      · exact exists_mem_copiedField.1 ⟨w, h⟩
      · have hk := key_of_mem_originEntryOf h
        simp at hk
    · intro hex
      obtain ⟨w, hw⟩ := exists_mem_copiedField.2 hex
      refine ⟨w, ?_⟩
      simp only [List.mem_append]
      exact Or.inl (Or.inr hw)
  · constructor
    · rintro ⟨w, hw⟩
      simp only [List.mem_append] at hw
      rcases hw with ((((h | h) | h) | h) | h)
      · have hk := key_of_mem_callEntryOf h
        simp at hk
      · have hk := key_of_mem_copiedField h
        simp at hk
      · have hk := key_of_mem_copiedField h
        simp at hk
      · have hk := key_of_mem_copiedField h
        simp at hk
      · exact exists_mem_originEntryOf.1 ⟨w, h⟩
    · intro hex
      obtain ⟨w, hw⟩ := exists_mem_originEntryOf.2 hex
      refine ⟨w, ?_⟩
      simp only [List.mem_append]
      exact Or.inr hw

/-- C3: when `moveScheduledCallToNextBlock` finds a matching scheduled item,
it relocates that slot and only that slot: the first (and agenda-touching)
batch nulls the source slot key and writes the entire converted agenda
array (same length, converted item by item in order) under the target
block; slots other than the source and target are untouched; when the
matched item carries a truthy `maybeId` whose lookup entry exists, a second
batch rewrites that alias to `(targetBlock, 0)`; and the call returns the
target block. -/
theorem moveScheduledCall_relocates_matched_slot
    (env : SchedulerEnv) (agenda : List AgendaEntry) (referendumId : Int)
    (callType : CallType) (proposalHash : Option String) (m : MatchResult)
    (h : findMatchingScheduledCall (schedulerMatcher env referendumId callType proposalHash)
           agenda = some m) :
    ∃ out : MoveOutcome,
      moveScheduledCallToNextBlock env agenda referendumId callType proposalHash = .ok out ∧
      out.targetBlock
        = (getSchedulingBlocks env.isFellowship env.headNumber env.lastRelayBlock).targetBlock ∧
      out.batches.head?
        = some ⟨[.agendaWrite m.key none,
                 .agendaWrite out.targetBlock (some (convertAgendaItems m.agendaItems))]⟩ ∧
      (convertAgendaItems m.agendaItems).length = m.agendaItems.length ∧
      out.agenda
        = setAgendaSlot (setAgendaSlot agenda m.key none) out.targetBlock
            (some (convertAgendaItems m.agendaItems)) ∧
      (∀ e ∈ agenda, e.key ≠ m.key → e.key ≠ out.targetBlock → e ∈ out.agenda) ∧
      (∀ mid, getField m.scheduledEntry "maybeId" = some mid → mid.truthy = true →
        ∀ lv, env.lookupGetValue mid = some lv →
          out.batches
            = [⟨[.agendaWrite m.key none,
                 .agendaWrite out.targetBlock (some (convertAgendaItems m.agendaItems))]⟩,
               ⟨[.lookupWrite mid (out.targetBlock, 0)]⟩]) := by
  have hmap : (convertAgendaItems m.agendaItems).length = m.agendaItems.length :=
    List.length_map _ _
  simp only [moveScheduledCallToNextBlock, h]
  rcases hmid : getField m.scheduledEntry "maybeId" with _ | mid
  · refine ⟨_, rfl, rfl, rfl, hmap, rfl, ?_, ?_⟩
    · intro e he h1 h2
      simp [setAgendaSlot, applyBatch, applyAgendaWrite, List.mem_filter,
        List.mem_append, he, h1, h2]
    · intro mid' hmid' _ _ _
      simp [hmid] at hmid'
  · dsimp only
    by_cases ht : mid.truthy = true
    · rw [if_pos ht]
      rcases hlv : env.lookupGetValue mid with _ | lv
      · refine ⟨_, rfl, rfl, rfl, hmap, rfl, ?_, ?_⟩
        · intro e he h1 h2
          simp [setAgendaSlot, applyBatch, applyAgendaWrite, List.mem_filter,
            List.mem_append, he, h1, h2]
        · intro mid' hmid' _ lv' hlv'
          injection hmid' with heq
          subst heq
          rw [hlv] at hlv'
          cases hlv'
      · refine ⟨_, rfl, rfl, rfl, hmap, rfl, ?_, ?_⟩
        · intro e he h1 h2
          simp [setAgendaSlot, applyBatch, applyAgendaWrite, List.mem_filter,
            List.mem_append, he, h1, h2]
        · intro mid' hmid' _ lv' _
          injection hmid' with heq
          subst heq
          rfl
    · rw [if_neg ht]
      refine ⟨_, rfl, rfl, rfl, hmap, rfl, ?_, ?_⟩
      · intro e he h1 h2
        simp [setAgendaSlot, applyBatch, applyAgendaWrite, List.mem_filter,
          List.mem_append, he, h1, h2]
      · intro mid' hmid' ht' _ _
        injection hmid' with heq
        subst heq
        exact absurd ht' ht

/-- Witness for C3: a one-slot agenda at block 5 holding an `Inline` call is
relocated; on a relay fork at head 10 the target block is 11. -/
theorem moveScheduledCall_relocates_witness :
    ∃ out : MoveOutcome,
      moveScheduledCallToNextBlock
          ⟨fun _ => none, fun _ => none, false, 10, none⟩
          [⟨5, [DVal.obj [("call", DVal.obj [("type", DVal.str "Inline"),
                                             ("value", DVal.str "0xdead")])]]⟩]
          7 .execute none = .ok out ∧
      out.targetBlock = 11 := by
  obtain ⟨out, h1, h2, -⟩ :=
    moveScheduledCall_relocates_matched_slot
      ⟨fun _ => none, fun _ => none, false, 10, none⟩
      [⟨5, [DVal.obj [("call", DVal.obj [("type", DVal.str "Inline"),
                                         ("value", DVal.str "0xdead")])]]⟩]
      7 .execute none
      ⟨5, [DVal.obj [("call", DVal.obj [("type", DVal.str "Inline"),
                                        ("value", DVal.str "0xdead")])]],
       DVal.obj [("call", DVal.obj [("type", DVal.str "Inline"),
                                    ("value", DVal.str "0xdead")])]⟩
      rfl
  refine ⟨out, h1, ?_⟩
  rw [h2]
  rfl

/-- C4: when no agenda item matches the requested call,
`moveScheduledCallToNextBlock` fails with the scheduled-call-not-found
error naming the referendum id and the call type, and issues no storage
write (the error return carries no relocation). -/
theorem moveScheduledCall_not_found
    (env : SchedulerEnv) (agenda : List AgendaEntry) (referendumId : Int)
    (callType : CallType) (proposalHash : Option String)
    (h : findMatchingScheduledCall (schedulerMatcher env referendumId callType proposalHash)
           agenda = none) :
    moveScheduledCallToNextBlock env agenda referendumId callType proposalHash
      = .error (.scheduledCallNotFound referendumId callType.name) := by
  simp only [moveScheduledCallToNextBlock, h]

/-- Witness for C4 on an empty agenda. -/
theorem moveScheduledCall_not_found_witness :
    moveScheduledCallToNextBlock
        ⟨fun _ => none, fun _ => none, false, 10, none⟩ [] 42 .nudge none
      = .error (.scheduledCallNotFound 42 "nudge") :=
  moveScheduledCall_not_found _ [] 42 .nudge none rfl

/-- Closed form of `classifyDispatches`: the successes are the counted
events with a `success` result, and the failures are the counted events
with a `failure` result paired with their interpreted message. -/
theorem classifyDispatches_eq (eb : Option Int) (l : List ParsedEvent) :
    classifyDispatches eb l
      = (l.filter (dispatchSuccessCounted eb),
         (l.filter (dispatchFailureCounted eb)).map (fun e => (e, dispatchMessageOf e))) := by
  induction l with
  | nil => rfl
  | cons e rest ih =>
      simp only [classifyDispatches, ih]
      by_cases hs : dispatchSkipped eb e = true
      · have h1 : dispatchSuccessCounted eb e = false := by
          simp [dispatchSuccessCounted, countedDispatch, hs]
        have h2 : dispatchFailureCounted eb e = false := by
          simp [dispatchFailureCounted, countedDispatch, hs]
        simp [hs, List.filter_cons, h1, h2]
      · have hs' : dispatchSkipped eb e = false := by simpa using hs
        have hcnt : countedDispatch eb e = true := by simp [countedDispatch, hs']
        rcases ho : (interpretDispatchResult (dispatchResultOf e)).outcome
        · have h1 : dispatchSuccessCounted eb e = true := by
            simp [dispatchSuccessCounted, hcnt, dispatchOutcomeOf, ho]
          have h2 : dispatchFailureCounted eb e = false := by
            simp [dispatchFailureCounted, dispatchOutcomeOf, ho]
          simp [hs', ho, List.filter_cons, h1, h2]
        · have h1 : dispatchSuccessCounted eb e = false := by
            simp [dispatchSuccessCounted, dispatchOutcomeOf, ho]
          have h2 : dispatchFailureCounted eb e = true := by
            simp [dispatchFailureCounted, hcnt, dispatchOutcomeOf, ho]
          simp [hs', ho, List.filter_cons, h1, h2, dispatchMessageOf]
        · have h1 : dispatchSuccessCounted eb e = false := by
            simp [dispatchSuccessCounted, dispatchOutcomeOf, ho]
          have h2 : dispatchFailureCounted eb e = false := by
            simp [dispatchFailureCounted, dispatchOutcomeOf, ho]
          simp [hs', ho, List.filter_cons, h1, h2]

/-- A filter is nonempty exactly when some element satisfies the predicate. -/
theorem filter_length_pos_iff_any {α : Type} (p : α → Bool) (l : List α) :
    0 < (l.filter p).length ↔ l.any p = true := by
  constructor
  · intro h
    rw [List.length_pos] at h
    rcases List.exists_mem_of_ne_nil _ h with ⟨x, hx⟩
    rw [List.mem_filter] at hx
    exact List.any_eq_true.mpr ⟨x, hx.1, hx.2⟩
  · intro h
    rcases List.any_eq_true.mp h with ⟨x, hxl, hpx⟩
    exact List.length_pos.mpr (List.ne_nil_of_mem (List.mem_filter.mpr ⟨hxl, hpx⟩))

/-- A filter is empty exactly when every element fails the predicate. -/
theorem filter_length_eq_zero_iff_all {α : Type} (p : α → Bool) (l : List α) :
    (l.filter p).length = 0 ↔ l.all (fun x => !p x) = true := by
  rw [List.length_eq_zero, List.filter_eq_nil_iff, List.all_eq_true]
  simp

/-- C2 counterexample: a `Scheduler.Dispatched` event carrying no task array
but a success result makes the verdict true even though no Dispatched event
has a task block equal to the expected block 500 — the claim's iff fails. -/
theorem checkExecutionResults_taskless_counterexample :
    (checkExecutionResults
        [⟨"Scheduler", "Dispatched", .obj [("result", .obj [("Ok", .null)])]⟩]
        1 (some 500)).executionSucceeded = true ∧
    ([⟨"Scheduler", "Dispatched", .obj [("result", .obj [("Ok", .null)])]⟩]
       : List ParsedEvent).filter (authoritativeDispatch 500) = [] := by
  exact ⟨rfl, rfl⟩

/-- C2 (amended): with `expectedBlock` given, `executionSucceeded = true`
iff at least one counted (non-skipped) `Scheduler.Dispatched` event has a
success result, no counted Dispatched event has a failure result, and
there are zero `System.ExtrinsicFailed` events; Dispatched events with a
non-matching array task block are skipped even when successful, but a
Dispatched event without a task array is counted; with zero counted
Dispatched events the verdict is false; and with zero Dispatched events
and zero extrinsic failures the verdict carries the block-qualified
diagnostic. -/
theorem checkExecutionResults_verdict (events : List ParsedEvent)
    (referendumId : Int) (expectedBlock : Int) :
    ((checkExecutionResults events referendumId (some expectedBlock)).executionSucceeded = true
      ↔ ((events.filter isDispatchedEvent).any
            (dispatchSuccessCounted (some expectedBlock)) = true ∧
         (events.filter isDispatchedEvent).all
            (fun e => !dispatchFailureCounted (some expectedBlock) e) = true ∧
         (events.filter isExtrinsicFailedEvent).length = 0)) ∧
    ((events.filter isDispatchedEvent).all
        (fun e => !countedDispatch (some expectedBlock) e) = true →
      (checkExecutionResults events referendumId (some expectedBlock)).executionSucceeded
        = false) ∧
    (events.filter isDispatchedEvent = [] →
     events.filter isExtrinsicFailedEvent = [] →
      checkExecutionResults events referendumId (some expectedBlock)
        = ⟨false,
           some [s!"No Scheduler.Dispatched event found for block {expectedBlock} - proposal execution did not happen"]⟩) := by
  have key : (checkExecutionResults events referendumId
        (some expectedBlock)).executionSucceeded = true
      ↔ (0 < (events.filter isDispatchedEvent).length ∧
         0 < ((events.filter isDispatchedEvent).filter
                (dispatchSuccessCounted (some expectedBlock))).length ∧
         (((events.filter isDispatchedEvent).filter
             (dispatchFailureCounted (some expectedBlock))).map
           (fun e => (e, dispatchMessageOf e))).length = 0 ∧
         (events.filter isExtrinsicFailedEvent).length = 0) := by
    simp only [checkExecutionResults, classifyDispatches_eq]
    by_cases hD : 0 < (events.filter isDispatchedEvent).length
    · rw [if_pos hD]
      by_cases hc1 : 0 < ((events.filter isDispatchedEvent).filter
            (dispatchSuccessCounted (some expectedBlock))).length ∧
          (((events.filter isDispatchedEvent).filter
              (dispatchFailureCounted (some expectedBlock))).map
            (fun e => (e, dispatchMessageOf e))).length = 0 ∧
          (events.filter isExtrinsicFailedEvent).length = 0
      · rw [if_pos hc1]
        constructor
        · intro _
          exact ⟨hD, hc1.1, hc1.2.1, hc1.2.2⟩
        · intro _
          rfl
      · rw [if_neg hc1]
        constructor
        · intro habs
          exfalso
          split_ifs at habs <;>
            simp [checkExecutionResults.noDispatchResult] at habs
        · rintro ⟨-, h2, h3, h4⟩
          exact absurd ⟨h2, h3, h4⟩ hc1
    · rw [if_neg hD]
      constructor
      · intro habs
        exfalso
        split_ifs at habs <;>
          simp [checkExecutionResults.noDispatchResult] at habs
      · rintro ⟨h1, -, -, -⟩
        exact absurd h1 hD
  refine ⟨?_, ?_, ?_⟩
  · rw [key]
    constructor
    · rintro ⟨-, h2, h3, h4⟩
      refine ⟨(filter_length_pos_iff_any _ _).mp h2, ?_, h4⟩
      rw [← filter_length_eq_zero_iff_all]
      rwa [List.length_map] at h3
    · rintro ⟨h2, h3, h4⟩
      refine ⟨?_, (filter_length_pos_iff_any _ _).mpr h2, ?_, h4⟩
      · rcases List.any_eq_true.mp h2 with ⟨x, hx, -⟩
        exact List.length_pos.mpr (List.ne_nil_of_mem hx)
      · rw [List.length_map]
        exact (filter_length_eq_zero_iff_all _ _).mpr h3
  · intro hall
    cases hval : (checkExecutionResults events referendumId
        (some expectedBlock)).executionSucceeded
    · rfl
    · exfalso
      obtain ⟨-, hpos, -, -⟩ := key.mp hval
      rw [filter_length_pos_iff_any] at hpos
      rcases List.any_eq_true.mp hpos with ⟨x, hx, hpx⟩
      have hnc := List.all_eq_true.mp hall x hx
      rw [dispatchSuccessCounted, Bool.and_eq_true] at hpx
      rw [hpx.1] at hnc
      exact absurd hnc (by decide)
  · intro hDnil hEnil
    simp only [checkExecutionResults, hDnil, hEnil]
    simp [checkExecutionResults.noDispatchResult]

/-- Witness for C2 at the spec scenario: no events at all and
`expectedBlock = 500` yield the exact block-qualified diagnostic. -/
theorem checkExecutionResults_verdict_witness :
    checkExecutionResults [] 1 (some 500)
      = ⟨false,
         some ["No Scheduler.Dispatched event found for block 500 - proposal execution did not happen"]⟩ :=
  (checkExecutionResults_verdict [] 1 500).2.2 rfl rfl

end ReferendaTester
